import Mathlib

/-!
Shallow embedding of the resilient API client of
src/nextjs-app/src/modules/shared/services/apiClient.ts
(class ApiClient: cache store, interceptor pipeline, retry policy,
request executor) and proofs of the spec claims about it.

Modelling conventions:
* JavaScript payload values are the inductive JsValue; JS truthiness is
  the function truthy.
* A JS object used as a header map is a list of key/value pairs in key
  insertion order; object spread merge is hMerge, rest destructuring
  without one key is hRemove.
* The cache Map is an association list in insertion order.
* Time stamps and durations are Nat (milliseconds).
* Async control flow is made explicit: the operation passed to the retry
  wrapper is a function from the attempt number (1-based) to a result,
  and the model returns the invocation count and the list of backoff
  delays slept, so that counting and timing claims are statable.
* The fetch transport, and JSON.parse, are parameters of the model.
-/

/-- A JavaScript runtime value, as far as the cache payloads need:
null, booleans, numbers, strings, and an opaque object value. -/
inductive JsValue : Type
  | vNull : JsValue
  | vBool : Bool → JsValue
  | vNum : Int → JsValue
  | vStr : String → JsValue
  | vObj : JsValue
deriving DecidableEq, Repr

/-- JavaScript truthiness of a JsValue (used by `if (cachedData)` and
`if (url)` in the source). -/
def truthy : JsValue → Bool
  | JsValue.vNull => false
  | JsValue.vBool b => b
  | JsValue.vNum n => n != 0
  | JsValue.vStr s => s != ""
  | JsValue.vObj => true

/-- A JS object of string keys and string values, in key insertion
order (header maps, query-parameter records). -/
abbrev Headers : Type := List (String × String)

/-- Object property lookup. JS objects have unique keys, so first
match gives the value of the key. -/
def hLookup (h : Headers) (k : String) : Option String :=
  (h.find? (fun p => p.1 = k)).map (fun p => p.2)

/-- Object spread merge as in the expression
`{ ...this.defaultHeaders, ...options.headers }` of the source: keys of `a` keep
their position but values of `b` win on collision; keys only in `b`
follow in their order. -/
def hMerge (a b : Headers) : Headers :=
  (a.map (fun p =>
    match hLookup b p.1 with
    | some v => (p.1, v)
    | none => p))
  ++ b.filter (fun p => (hLookup a p.1).isNone)

/-- Rest destructuring dropping one key, as in source line 290,
`const \x7b ...headersWithoutContentType \x7d` without the Content-Type key. -/
def hRemove (a : Headers) (k : String) : Headers :=
  a.filter (fun p => p.1 ≠ k)

/-- One cache entry: `{ data: any; timestamp: number }` (source line 33). -/
structure CacheEntry : Type where
  data : JsValue
  timestamp : Nat
deriving DecidableEq, Repr

/-- The cache Map, `Map<string, { data, timestamp }>`, as an association
list in insertion order. -/
abbrev Cache : Type := List (String × CacheEntry)

/-- Model of `Map.get`. -/
def cacheGet (c : Cache) (k : String) : Option CacheEntry :=
  (List.find? (fun p => p.1 = k) c).map (fun p => p.2)

/-- Model of `Map.delete`. -/
def cacheDelete (c : Cache) (k : String) : Cache :=
  List.filter (fun p => p.1 ≠ k) c

/-- Model of `Map.set`: updates the existing entry in place, else appends. -/
def cacheSet (c : Cache) (k : String) (e : CacheEntry) : Cache :=
  if (cacheGet c k).isSome then
    List.map (fun p => if p.1 = k then (k, e) else p) c
  else c ++ [(k, e)]

/-- Model of `URLSearchParams(params).toString()`: serializes the pairs in
insertion order, joined by ampersands. (URL-escaping is the identity on
the plain values occurring in the claims; URLSearchParams does NOT sort
unless its separate sort() method is called, which the source never
does.) -/
def searchParamsToString (ps : List (String × String)) : String :=
  String.intercalate "&" (ps.map (fun p => p.1 ++ "=" ++ p.2))

/-- Model of `ApiClient.getCacheKey` (source lines 92-99): baseUrl ++ url, with
`?` and the serialized params appended when params is non-null. -/
def getCacheKey (baseUrl url : String) (params : Option (List (String × String))) : String :=
  match params with
  | some ps => baseUrl ++ url ++ "?" ++ searchParamsToString ps
  | none => baseUrl ++ url

/-- The url built by `ApiClient.get` (source lines 237-242) before it
calls request: the path with the serialized query appended. -/
def getRequestUrl (url : String) (params : Option (List (String × String))) : String :=
  match params with
  | some ps => url ++ "?" ++ searchParamsToString ps
  | none => url

/-- The cache key a GET issued through `ApiClient.get` ends up using:
request (line 158) computes `getCacheKey(url, null)` on the url that
get already extended with the query string. -/
def getCacheKeyForGet (baseUrl url : String) (params : Option (List (String × String))) : String :=
  getCacheKey baseUrl (getRequestUrl url params) none

/-- Model of `ApiClient.clearCache` (source lines 84-90). The url argument is
optional; `if (url)` is JS truthiness, so an empty string also falls to
the clear-everything branch. With a truthy url it deletes exactly the
key baseUrl ++ url. -/
def clearCache (c : Cache) (baseUrl : String) (url : Option String) : Cache :=
  match url with
  | some u => if u ≠ "" then cacheDelete c (baseUrl ++ u) else []
  | none => []

/-- Model of `ApiClient.getFromCache` (source lines 101-112). Returns the data
(if served) and the possibly-updated cache. cacheTtl is optional; the
guard `if (cached && cacheTtl)` treats an absent or zero ttl as falsy,
in which case the stored data is returned with no freshness check.
`isExpired` is `now - timestamp > cacheTtl`, a strict inequality. -/
def getFromCache (c : Cache) (cacheKey : String) (cacheTtl : Option Nat) (now : Nat) :
    Option JsValue × Cache :=
  match cacheGet c cacheKey with
  | some cached =>
    if cacheTtl.getD 0 ≠ 0 then
      if now - cached.timestamp > cacheTtl.getD 0 then
        (none, cacheDelete c cacheKey)
      else (some cached.data, c)
    else (some cached.data, c)
  | none => (none, c)

/-- Model of `ApiClient.setCache` (source lines 114-119). -/
def setCache (c : Cache) (cacheKey : String) (data : JsValue) (now : Nat) : Cache :=
  cacheSet c cacheKey { data := data, timestamp := now }

/-- The retry configuration (source lines 27-32, defaults lines 44-49). -/
structure RetryConfig : Type where
  maxAttempts : Nat
  initialDelay : Nat
  maxDelay : Nat
  backoffFactor : Nat
deriving DecidableEq, Repr

/-- The exponential backoff delay computed at source lines 136-139 after
the failed attempt number `attempt` (1-based):
`min(initialDelay * backoffFactor ^ (attempt - 1), maxDelay)`. -/
def backoffDelay (cfg : RetryConfig) (attempt : Nat) : Nat :=
  min (cfg.initialDelay * cfg.backoffFactor ^ (attempt - 1)) cfg.maxDelay

/-- The `for (attempt = 1; attempt <= maxAttempts; attempt++)` loop of
`ApiClient.executeWithRetry` (source lines 122-146), from a given
attempt number and the current `lastError`. The operation is a function
from the attempt number to the outcome of that attempt. Returns the final
outcome (error none models the `throw lastError` after a loop that ran
zero iterations, where lastError is still undefined), the number of
times the operation was invoked, and the list of delays slept. -/
def retryLoop {E A : Type} (cfg : RetryConfig) (op : Nat → Except E A)
    (attempt : Nat) (lastError : Option E) : Except (Option E) A × Nat × List Nat :=
  if hle : attempt ≤ cfg.maxAttempts then
    match op attempt with
    | Except.ok a => (Except.ok a, 1, [])
    | Except.error e =>
      if attempt = cfg.maxAttempts then (Except.error (some e), 1, [])
      else
        let r := retryLoop cfg op (attempt + 1) (some e)
        (r.1, r.2.1 + 1, backoffDelay cfg attempt :: r.2.2)
  else (Except.error lastError, 0, [])
termination_by cfg.maxAttempts + 1 - attempt
decreasing_by simp_all; omega

/-- Model of `ApiClient.executeWithRetry`: run the loop from attempt 1 with no
previous error. -/
def executeWithRetry {E A : Type} (cfg : RetryConfig) (op : Nat → Except E A) :
    Except (Option E) A × Nat × List Nat :=
  retryLoop cfg op 1 none

/-- The url/options pair threaded through the request interceptors. The
options keep the parts of RequestInit the claims observe: the method
and the headers (the body is opaque to every claim and is elided). -/
structure ReqOptions : Type where
  method : Option String
  headers : Headers
deriving DecidableEq, Repr

abbrev ReqPair : Type := String × ReqOptions

/-- Model of `ApiClient.applyRequestInterceptors` (source lines 62-70): fold the
registered interceptors over the pair, each receiving the previous
result. -/
def applyRequestInterceptors (ints : List (ReqPair → ReqPair)) (x : ReqPair) : ReqPair :=
  ints.foldl (fun result interceptor => interceptor result) x

/-- A network response, as far as the claims observe it: `ok` (2xx),
the numeric status, the body text, and whether the Content-Type header
declares application/json. -/
structure Response : Type where
  ok : Bool
  status : Nat
  bodyText : String
  contentTypeJson : Bool
deriving DecidableEq, Repr

/-- Model of `ApiClient.applyResponseInterceptors` (source lines 73-81). -/
def applyResponseInterceptors (ints : List (Response → Response)) (r : Response) : Response :=
  ints.foldl (fun result interceptor => interceptor result) r

/-- Model of `ApiClient.addRequestInterceptor` (source lines 53-55): push appends
at the end of the registration list. -/
def addRequestInterceptor (ints : List (ReqPair → ReqPair)) (f : ReqPair → ReqPair) :
    List (ReqPair → ReqPair) :=
  ints ++ [f]

/-- Model of `ApiClient.addResponseInterceptor` (source lines 57-59). -/
def addResponseInterceptor (ints : List (Response → Response)) (f : Response → Response) :
    List (Response → Response) :=
  ints ++ [f]

/-- The body attached to a thrown HTTP error (source lines 196-202):
the JSON-decoded body when `JSON.parse` succeeds, else the raw text
wrapped as `{ message: errorData }`. -/
inductive ParsedBody : Type
  | json : JsValue → ParsedBody
  | wrapped : String → ParsedBody
deriving DecidableEq, Repr

/-- Best-effort parse of an error body, with the ambient JSON.parse
passed in as a function returning none on a parse failure. -/
def parseBody (parse : String → Option JsValue) (errorData : String) : ParsedBody :=
  match parse errorData with
  | some v => ParsedBody.json v
  | none => ParsedBody.wrapped errorData

/-- The error thrown for a non-2xx response (source lines 204-207): it
carries `(error as any).status` and `(error as any).response`. -/
structure HttpError : Type where
  status : Nat
  response : ParsedBody
deriving DecidableEq, Repr

/-- The non-2xx check inside the retried operation (source lines
195-210): an ok response is returned, a non-ok response is turned into
a thrown HttpError carrying the status and the best-effort parsed
body. -/
def handleResponse (parse : String → Option JsValue) (resp : Response) :
    Except HttpError Response :=
  if resp.ok then Except.ok resp
  else Except.error { status := resp.status, response := parseBody parse resp.bodyText }

/-- The client configuration pieces the request path reads (source
lines 24-32, constructor lines 37-50). -/
structure ClientConfig : Type where
  baseUrl : String
  defaultHeaders : Headers
  retryConfig : RetryConfig
deriving DecidableEq, Repr

/-- The cacheOptions argument of request:
`{ cache?: boolean; cacheTtl?: number }`. -/
structure CacheOpts : Type where
  cache : Bool
  cacheTtl : Option Nat
deriving DecidableEq, Repr

/-- The errors `ApiClient.request` can propagate: the HttpError thrown
for a non-2xx response (after retries), a JSON body decode failure on
the final ok response, and the undefined lastError thrown when the
retry loop runs zero iterations. -/
inductive ReqError : Type
  | http : HttpError → ReqError
  | decode : ReqError
  | noAttempt : ReqError
deriving DecidableEq, Repr

/-- What one call of `ApiClient.request` produces: the returned data or
propagated error, the cache afterwards, and how many times fetch ran. -/
structure RequestResult : Type where
  result : Except ReqError JsValue
  cache : Cache
  fetchCount : Nat
deriving Repr

/-- The intercepted url/options pair handed to the transport: the full
url and the merged headers `{ ...defaultHeaders, ...options.headers }`
(source lines 168-174), after the request interceptor chain (source
line 177). -/
def sentRequest (cfg : ClientConfig) (reqInts : List (ReqPair → ReqPair))
    (url : String) (opts : ReqOptions) : ReqPair :=
  applyRequestInterceptors reqInts
    (cfg.baseUrl ++ url, { opts with headers := hMerge cfg.defaultHeaders opts.headers })

/-- The response of the last allowed attempt, after the response
interceptor chain: the response whose status and body the finally
thrown error carries when every attempt fails. -/
def finalResponse (cfg : ClientConfig) (reqInts : List (ReqPair → ReqPair))
    (respInts : List (Response → Response)) (url : String) (opts : ReqOptions)
    (fetch : Nat → ReqPair → Response) : Response :=
  applyResponseInterceptors respInts
    (fetch cfg.retryConfig.maxAttempts (sentRequest cfg reqInts url opts))

/-- The network part of `ApiClient.request` (source lines 167-233),
reached when no cached value was served: header merge and interceptor
chain (via sentRequest), the retried fetch with the response
interceptor chain and the non-2xx check inside the retried operation,
the body decode by Content-Type, and the cache write for cacheable
GETs (writeBack is the `(method GET or absent) && cacheOptions?.cache`
condition of source line 224). cacheAfterLookup is the cache after the
lookup phase (a stale entry may have been deleted there). -/
def networkPhase (cfg : ClientConfig)
    (reqInts : List (ReqPair → ReqPair)) (respInts : List (Response → Response))
    (cacheAfterLookup : Cache) (url : String) (opts : ReqOptions) (writeBack : Bool)
    (fetch : Nat → ReqPair → Response) (parse : String → Option JsValue)
    (now : Nat) : RequestResult :=
  let attempt := executeWithRetry cfg.retryConfig
    (fun k => handleResponse parse (applyResponseInterceptors respInts
      (fetch k (sentRequest cfg reqInts url opts))))
  match attempt.1 with
  | Except.error (some e) =>
    { result := Except.error (ReqError.http e), cache := cacheAfterLookup,
      fetchCount := attempt.2.1 }
  | Except.error none =>
    { result := Except.error ReqError.noAttempt, cache := cacheAfterLookup,
      fetchCount := attempt.2.1 }
  | Except.ok resp =>
    let data :=
      if resp.contentTypeJson then parse resp.bodyText
      else some (JsValue.vStr resp.bodyText)
    match data with
    | none =>
      { result := Except.error ReqError.decode, cache := cacheAfterLookup,
        fetchCount := attempt.2.1 }
    | some d =>
      let cacheAfter :=
        if writeBack then
          setCache cacheAfterLookup (getCacheKey cfg.baseUrl url none) d now
        else cacheAfterLookup
      { result := Except.ok d, cache := cacheAfter, fetchCount := attempt.2.1 }

/-- Model of `ApiClient.request` (source lines 149-234). The transport is the
function fetch from the attempt number and the intercepted url/options
to the raw response; parse is JSON.parse returning none on failure; now
is Date.now(). First the GET cache check gated by `cacheOptions?.cache`
and `if (cachedData)` (truthiness, source lines 156-165); when nothing
is served, the network phase (networkPhase above). The AbortController
timeout is real time and is not modelled. -/
def requestModel (cfg : ClientConfig)
    (reqInts : List (ReqPair → ReqPair)) (respInts : List (Response → Response))
    (cache : Cache) (url : String) (opts : ReqOptions)
    (cacheOptions : Option CacheOpts)
    (fetch : Nat → ReqPair → Response) (parse : String → Option JsValue)
    (now : Nat) : RequestResult :=
  let isGet := (opts.method == some "GET") || opts.method.isNone
  let wantsCache := (cacheOptions.map (fun o => o.cache)).getD false
  let lookup :=
    if isGet && wantsCache then
      getFromCache cache (getCacheKey cfg.baseUrl url none)
        ((cacheOptions.map (fun o => o.cacheTtl)).getD none) now
    else (none, cache)
  let served :=
    match lookup.1 with
    | some v => if truthy v then some v else none
    | none => none
  match served with
  | some v => { result := Except.ok v, cache := lookup.2, fetchCount := 0 }
  | none =>
    networkPhase cfg reqInts respInts lookup.2 url opts (isGet && wantsCache) fetch parse now

/-- The per-call headers `ApiClient.upload` (source lines 279-298)
passes to request when the caller gives no options: the default headers
with the Content-Type key destructured away. -/
def uploadCallHeaders (cfg : ClientConfig) : Headers :=
  hRemove cfg.defaultHeaders "Content-Type"

/-- The merged headers of the outgoing upload request: the per-call
headers of upload after the merge of request at source lines 168-174,
`{ ...this.defaultHeaders, ...options.headers }`. -/
def uploadMergedHeaders (cfg : ClientConfig) : Headers :=
  hMerge cfg.defaultHeaders (uploadCallHeaders cfg)

/-- The configuration of the exported client instance (source lines
302-315, with the constructor defaults of lines 37-50). -/
def defaultClientConfig : ClientConfig :=
  { baseUrl := ""
    defaultHeaders := [("Content-Type", "application/json"), ("Accept", "application/json")]
    retryConfig :=
      { maxAttempts := 3, initialDelay := 1000, maxDelay := 5000, backoffFactor := 2 } }

/-! ## Helper lemmas -/

/-- Deleting one key leaves lookups of every other key unchanged. -/
theorem cacheGet_delete_ne (c : Cache) (k target : String) (h : k ≠ target) :
    cacheGet (cacheDelete c target) k = cacheGet c k := by
  induction c with
  | nil => rfl
  | cons p rest ih =>
    simp only [cacheDelete, cacheGet, List.filter_cons] at ih ⊢
    by_cases hp : p.1 = target
    · have hk : ¬ p.1 = k := fun e => h (e ▸ hp)
      rw [if_neg (by simp [hp]), List.find?_cons_of_neg _ (by simp [hk])]
      exact ih
    · rw [if_pos (by simp [hp])]
      by_cases hk : p.1 = k
      · rw [List.find?_cons_of_pos _ (by simp [hk]), List.find?_cons_of_pos _ (by simp [hk])]
      · rw [List.find?_cons_of_neg _ (by simp [hk]), List.find?_cons_of_neg _ (by simp [hk])]
        exact ih

/-- Deleting a key removes every entry under it. -/
theorem cacheGet_delete_self (c : Cache) (k : String) :
    cacheGet (cacheDelete c k) k = none := by
  induction c with
  | nil => rfl
  | cons p rest ih =>
    simp only [cacheDelete, cacheGet, List.filter_cons] at ih ⊢
    by_cases hp : p.1 = k
    · rw [if_neg (by simp [hp])]
      exact ih
    · rw [if_pos (by simp [hp]), List.find?_cons_of_neg _ (by simp [hp])]
      exact ih

/-- Unfolding of the retry loop at a failing reachable attempt. -/
theorem retryLoop_eq_error {E A : Type} (cfg : RetryConfig) (op : Nat → Except E A)
    (attempt : Nat) (lastError : Option E) (e : E)
    (ha : attempt ≤ cfg.maxAttempts) (hope : op attempt = Except.error e) :
    retryLoop cfg op attempt lastError =
      if attempt = cfg.maxAttempts then (Except.error (some e), 1, [])
      else
        ((retryLoop cfg op (attempt + 1) (some e)).1,
         (retryLoop cfg op (attempt + 1) (some e)).2.1 + 1,
         backoffDelay cfg attempt :: (retryLoop cfg op (attempt + 1) (some e)).2.2) := by
  conv_lhs => unfold retryLoop
  rw [dif_pos ha, hope]

/-- Unfolding of the retry loop at a succeeding reachable attempt. -/
theorem retryLoop_eq_ok {E A : Type} (cfg : RetryConfig) (op : Nat → Except E A)
    (attempt : Nat) (lastError : Option E) (a : A)
    (ha : attempt ≤ cfg.maxAttempts) (hopa : op attempt = Except.ok a) :
    retryLoop cfg op attempt lastError = (Except.ok a, 1, []) := by
  conv_lhs => unfold retryLoop
  rw [dif_pos ha, hopa]

/-- When every attempt fails, the retry loop started at any reachable
attempt number invokes the operation once per remaining attempt, sleeps
the backoff delay after each non-final failure, and finally throws the
error of the last allowed attempt. -/
theorem retryLoop_allFail {E A : Type} (cfg : RetryConfig) (op : Nat → Except E A)
    (err : Nat → E) (hop : ∀ k, op k = Except.error (err k)) :
    ∀ d attempt lastError, 1 ≤ attempt → attempt ≤ cfg.maxAttempts →
      cfg.maxAttempts - attempt = d →
      retryLoop cfg op attempt lastError =
        (Except.error (some (err cfg.maxAttempts)), cfg.maxAttempts + 1 - attempt,
         (List.range' attempt (cfg.maxAttempts - attempt)).map (backoffDelay cfg)) := by
  intro d
  induction d with
  | zero =>
    intro attempt lastError h1 h2 hd
    have heq : attempt = cfg.maxAttempts := by omega
    rw [retryLoop_eq_error cfg op attempt lastError (err attempt) h2 (hop attempt),
      if_pos heq, heq]
    simp only [Prod.mk.injEq, Nat.sub_self, List.range'_zero, List.map_nil]
    exact ⟨trivial, by omega, trivial⟩
  | succ m ih =>
    intro attempt lastError h1 h2 hd
    have hlt : attempt < cfg.maxAttempts := by omega
    rw [retryLoop_eq_error cfg op attempt lastError (err attempt) h2 (hop attempt),
      if_neg (by omega : ¬ attempt = cfg.maxAttempts)]
    rw [ih (attempt + 1) (some (err attempt)) (by omega) (by omega) (by omega)]
    have hcount : cfg.maxAttempts + 1 - (attempt + 1) + 1 = cfg.maxAttempts + 1 - attempt := by
      omega
    have hrange : List.range' attempt (cfg.maxAttempts - attempt)
        = attempt :: List.range' (attempt + 1) (cfg.maxAttempts - (attempt + 1)) := by
      have hn : cfg.maxAttempts - attempt = (cfg.maxAttempts - (attempt + 1)) + 1 := by omega
      rw [hn, List.range'_succ]
    simp only [hrange, List.map_cons, Prod.mk.injEq]
    exact ⟨trivial, by omega, trivial⟩

/-- The retry wrapper invokes the operation at least once whenever at
least one attempt is allowed. -/
theorem executeWithRetry_pos {E A : Type} (cfg : RetryConfig) (op : Nat → Except E A)
    (h1 : 1 ≤ cfg.maxAttempts) : 1 ≤ (executeWithRetry cfg op).2.1 := by
  unfold executeWithRetry
  cases hop1 : op 1 with
  | ok a => rw [retryLoop_eq_ok cfg op 1 none a h1 hop1]
  | error e =>
    rw [retryLoop_eq_error cfg op 1 none e h1 hop1]
    by_cases h : 1 = cfg.maxAttempts
    · simp [h]
    · simp [h]

/-! ## Claims -/

/-- C1: the claim says cache keys are order-canonical in the query
parameters. The code is not: get and getCacheKey serialize the
parameters with URLSearchParams in insertion order and never sort, so
the two parameter orders of the very example named by the claim produce
two different cache keys. This theorem evaluates the embedded code at
that failing input. -/
theorem c1_cacheKey_order_dependent :
    getCacheKeyForGet "" "/api/users" (some [("role", "COACH"), ("page", "2")])
        = "/api/users?role=COACH&page=2" ∧
    getCacheKeyForGet "" "/api/users" (some [("page", "2"), ("role", "COACH")])
        = "/api/users?page=2&role=COACH" ∧
    getCacheKeyForGet "" "/api/users" (some [("role", "COACH"), ("page", "2")])
      ≠ getCacheKeyForGet "" "/api/users" (some [("page", "2"), ("role", "COACH")]) := by
  refine ⟨rfl, rfl, ?_⟩
  decide

/-- C2: the claim says an upload never carries Content-Type:
application/json after the header merge. The code strips Content-Type
from the per-call headers (upload, line 290), but request then merges
`{ ...defaultHeaders, ...options.headers }` (lines 170-173), and the
stripped key is simply absent from the per-call object, so the default
Content-Type: application/json survives into the outgoing headers of
every upload made with the exported client configuration. -/
theorem c2_upload_contentType_survives :
    hLookup (uploadCallHeaders defaultClientConfig) "Content-Type" = none ∧
    hLookup (uploadMergedHeaders defaultClientConfig) "Content-Type"
        = some "application/json" ∧
    (sentRequest defaultClientConfig [] "/api/upload"
        { method := some "POST", headers := uploadCallHeaders defaultClientConfig }).2.headers
      = uploadMergedHeaders defaultClientConfig := by
  refine ⟨rfl, rfl, rfl⟩

/-- C3 counterexample: the claim says a read at exactly
now - storedAt = ttl is a miss. The code tests expiry with the strict
`now - timestamp > cacheTtl`, so at the boundary the entry is served as
a hit and stays stored. -/
theorem c3_boundary_is_hit :
    getFromCache [("k", { data := JsValue.vStr "v", timestamp := 0 })] "k" (some 1000) 1000
      = (some (JsValue.vStr "v"), [("k", { data := JsValue.vStr "v", timestamp := 0 })]) := by
  rfl

/-- C3 amended: for a stored entry and a positive ttl, a cache read
returns the stored value iff now - storedAt is at most ttl (non-strict);
when now - storedAt exceeds ttl it returns absent and the entry is
removed from the store. -/
theorem c3_getFromCache_fresh_iff (c : Cache) (k : String) (e : CacheEntry) (ttl now : Nat)
    (hk : cacheGet c k = some e) (httl : 0 < ttl) :
    (now - e.timestamp ≤ ttl → getFromCache c k (some ttl) now = (some e.data, c)) ∧
    (ttl < now - e.timestamp →
      getFromCache c k (some ttl) now = (none, cacheDelete c k) ∧
      cacheGet (getFromCache c k (some ttl) now).2 k = none) := by
  constructor
  · intro hle
    simp only [getFromCache, hk, Option.getD_some]
    rw [if_pos (by omega), if_neg (by omega)]
  · intro hgt
    have hread : getFromCache c k (some ttl) now = (none, cacheDelete c k) := by
      simp only [getFromCache, hk, Option.getD_some]
      rw [if_pos (by omega), if_pos (by omega)]
    refine ⟨hread, ?_⟩
    rw [hread]
    exact cacheGet_delete_self c k

/-- C3 witness: the amended statement at a concrete store (hit at
now - storedAt = 5 ≤ ttl = 10, miss and removal at now - storedAt = 11). -/
theorem c3_getFromCache_fresh_iff_witness :
    getFromCache [("k", { data := JsValue.vNum 7, timestamp := 0 })] "k" (some 10) 5
      = (some (JsValue.vNum 7), [("k", { data := JsValue.vNum 7, timestamp := 0 })]) ∧
    getFromCache [("k", { data := JsValue.vNum 7, timestamp := 0 })] "k" (some 10) 11
      = (none, []) := by
  constructor
  · exact (c3_getFromCache_fresh_iff
      [("k", { data := JsValue.vNum 7, timestamp := 0 })] "k"
      { data := JsValue.vNum 7, timestamp := 0 } 10 5 rfl (by decide)).1 (by decide)
  · exact (((c3_getFromCache_fresh_iff
      [("k", { data := JsValue.vNum 7, timestamp := 0 })] "k"
      { data := JsValue.vNum 7, timestamp := 0 } 10 11 rfl (by decide)).2 (by decide)).1).trans
      (by rfl)

/-- C4 counterexample: the claim says clearCache with a path removes
every entry whose key starts with the key derived from that path,
including entries with query parameters appended. The code deletes
exactly one Map key, so the entry under the extended key
"/api/users" ++ "?page=2" survives clearCache("/api/users"). -/
theorem c4_clearCache_leaves_query_entry :
    clearCache
      [("/api/users", { data := JsValue.vObj, timestamp := 0 }),
       ("/api/users" ++ "?page=2", { data := JsValue.vObj, timestamp := 1 })]
      "" (some "/api/users")
      = [("/api/users" ++ "?page=2", { data := JsValue.vObj, timestamp := 1 })] := by
  decide

/-- C4 amended: clearCache with no argument empties the whole store;
clearCache with a non-empty path removes exactly the entry whose key
equals baseUrl followed by the path, and leaves every entry under any
other key (in particular keys with query parameters appended)
unchanged. -/
theorem c4_clearCache_exact (c : Cache) (baseUrl u : String) (hu : u ≠ "") :
    clearCache c baseUrl none = [] ∧
    clearCache c baseUrl (some u) = cacheDelete c (baseUrl ++ u) ∧
    cacheGet (clearCache c baseUrl (some u)) (baseUrl ++ u) = none ∧
    ∀ k, k ≠ baseUrl ++ u →
      cacheGet (clearCache c baseUrl (some u)) k = cacheGet c k := by
  have heq : clearCache c baseUrl (some u) = cacheDelete c (baseUrl ++ u) := by
    simp only [clearCache]
    rw [if_pos hu]
  refine ⟨rfl, heq, ?_, ?_⟩
  · rw [heq]
    exact cacheGet_delete_self c (baseUrl ++ u)
  · intro k hk
    rw [heq]
    exact cacheGet_delete_ne c k (baseUrl ++ u) hk

/-- C4 witness: the amended statement at a concrete store and path. -/
theorem c4_clearCache_exact_witness :
    clearCache [("/a", { data := JsValue.vObj, timestamp := 0 })] "" none = [] ∧
    clearCache [("/a", { data := JsValue.vObj, timestamp := 0 })] "" (some "/a")
      = cacheDelete [("/a", { data := JsValue.vObj, timestamp := 0 })] "/a" ∧
    cacheGet (clearCache [("/a", { data := JsValue.vObj, timestamp := 0 })] "" (some "/a")) "/a"
      = none ∧
    ∀ k, k ≠ "" ++ "/a" →
      cacheGet (clearCache [("/a", { data := JsValue.vObj, timestamp := 0 })] "" (some "/a")) k
        = cacheGet [("/a", { data := JsValue.vObj, timestamp := 0 })] k := by
  have h := c4_clearCache_exact [("/a", { data := JsValue.vObj, timestamp := 0 })] "" "/a"
    (by decide)
  simpa using h

/-- C5: retry bound. For any configuration with at least one allowed
attempt and any operation failing on every attempt, executeWithRetry
invokes the operation exactly maxAttempts times and finally throws the
error produced by the last attempt. -/
theorem c5_retry_bound {E A : Type} (cfg : RetryConfig) (op : Nat → Except E A)
    (err : Nat → E) (h1 : 1 ≤ cfg.maxAttempts)
    (hop : ∀ k, op k = Except.error (err k)) :
    (executeWithRetry cfg op).1 = Except.error (some (err cfg.maxAttempts)) ∧
    (executeWithRetry cfg op).2.1 = cfg.maxAttempts := by
  unfold executeWithRetry
  rw [retryLoop_allFail cfg op err hop (cfg.maxAttempts - 1) 1 none le_rfl h1 (by omega)]
  refine ⟨rfl, ?_⟩
  show cfg.maxAttempts + 1 - 1 = cfg.maxAttempts
  omega

/-- C5 witness: with maxAttempts = 3 and an operation failing on every
attempt, exactly 3 invocations happen and the third error is thrown. -/
theorem c5_retry_bound_witness :
    (executeWithRetry { maxAttempts := 3, initialDelay := 1000, maxDelay := 5000, backoffFactor := 2 }
        (fun k => (Except.error k : Except Nat Unit))).1 = Except.error (some 3) ∧
    (executeWithRetry { maxAttempts := 3, initialDelay := 1000, maxDelay := 5000, backoffFactor := 2 }
        (fun k => (Except.error k : Except Nat Unit))).2.1 = 3 := by
  exact c5_retry_bound
    { maxAttempts := 3, initialDelay := 1000, maxDelay := 5000, backoffFactor := 2 }
    (fun k => Except.error k) (fun k => k) (by decide) (fun k => rfl)

/-- C6: backoff growth. With initialDelay 1000, factor 2 and maxDelay
5000, the delays slept by an all-failing run are the backoffDelay
values of the failed non-final attempts 1, 2, ..., maxAttempts - 1, the
backoffDelay of the failed attempt n is min(1000 * 2 ^ (n - 1), 5000)
(so 1000 before attempt 2 and 2000 before attempt 3), and every delay
is capped at 5000. -/
theorem c6_backoff_growth {E A : Type} (m : Nat) (op : Nat → Except E A) (err : Nat → E)
    (h1 : 1 ≤ m) (hop : ∀ k, op k = Except.error (err k)) :
    (executeWithRetry { maxAttempts := m, initialDelay := 1000, maxDelay := 5000, backoffFactor := 2 } op).2.2
        = (List.range' 1 (m - 1)).map
            (backoffDelay { maxAttempts := m, initialDelay := 1000, maxDelay := 5000, backoffFactor := 2 }) ∧
    (∀ n, backoffDelay { maxAttempts := m, initialDelay := 1000, maxDelay := 5000, backoffFactor := 2 } n
        = min (1000 * 2 ^ (n - 1)) 5000) ∧
    backoffDelay { maxAttempts := m, initialDelay := 1000, maxDelay := 5000, backoffFactor := 2 } 1 = 1000 ∧
    backoffDelay { maxAttempts := m, initialDelay := 1000, maxDelay := 5000, backoffFactor := 2 } 2 = 2000 ∧
    (∀ n, backoffDelay { maxAttempts := m, initialDelay := 1000, maxDelay := 5000, backoffFactor := 2 } n ≤ 5000) := by
  have hbd : ∀ n,
      backoffDelay { maxAttempts := m, initialDelay := 1000, maxDelay := 5000, backoffFactor := 2 } n
        = min (1000 * 2 ^ (n - 1)) 5000 := fun n => rfl
  refine ⟨?_, hbd, ?_, ?_, fun n => min_le_right _ _⟩
  · unfold executeWithRetry
    rw [retryLoop_allFail _ op err hop (m - 1) 1 none le_rfl h1 rfl]
  · rw [hbd 1]
    norm_num
  · rw [hbd 2]
    norm_num

/-- C6 witness: with 5 allowed attempts and every attempt failing, the
slept delays are 1000, 2000, 4000 and then the 5000 cap. -/
theorem c6_backoff_growth_witness :
    (executeWithRetry { maxAttempts := 5, initialDelay := 1000, maxDelay := 5000, backoffFactor := 2 }
        (fun k => (Except.error k : Except Nat Unit))).2.2 = [1000, 2000, 4000, 5000] := by
  have h := (c6_backoff_growth 5 (fun k => (Except.error k : Except Nat Unit))
    (fun k => k) (by decide) (fun k => rfl)).1
  rw [h]
  rfl

/-- C7: interceptor ordering. Registering A then B makes a call apply A
first and then B to the output of A; registering C then D on the
response side applies C first and then D to the output of C; the
chains fold left in
registration order, so each interceptor receives the previous
output of the previous interceptor, for any previously registered list. -/
theorem c7_interceptor_ordering (l : List (ReqPair → ReqPair)) (A B : ReqPair → ReqPair)
    (ms : List (Response → Response)) (C D : Response → Response)
    (x : ReqPair) (r : Response) :
    applyRequestInterceptors (addRequestInterceptor (addRequestInterceptor l A) B) x
      = B (A (applyRequestInterceptors l x)) ∧
    applyResponseInterceptors (addResponseInterceptor (addResponseInterceptor ms C) D) r
      = D (C (applyResponseInterceptors ms r)) := by
  constructor
  · simp [applyRequestInterceptors, addRequestInterceptor, List.foldl_append]
  · simp [applyResponseInterceptors, addResponseInterceptor, List.foldl_append]

/-- C8 counterexample: the claim says a cache read with no ttl (or ttl
zero) never returns the stored value as a hit. In the code the guard
`if (cached && cacheTtl)` fails for an absent ttl and falls through to
`return cached ? cached.data : null`, which serves the stored value. -/
theorem c8_no_ttl_still_serves :
    (getFromCache [("k", { data := JsValue.vStr "v", timestamp := 0 })] "k" none 999999).1
      = some (JsValue.vStr "v") ∧
    (getFromCache [("k", { data := JsValue.vStr "v", timestamp := 0 })] "k" (some 0) 999999).1
      = some (JsValue.vStr "v") := by
  exact ⟨rfl, rfl⟩

/-- C8 amended: when the per-call ttl is unspecified or zero, the cache
read performs no freshness check at all: it returns whatever is stored
under the key (absent only when the key is absent) and never removes
the entry. Whether a call consults the cache at all is governed by the
separate boolean cache flag in request, not by the ttl. -/
theorem c8_getFromCache_no_ttl (c : Cache) (k : String) (ttl : Option Nat) (now : Nat)
    (httl : ttl.getD 0 = 0) :
    getFromCache c k ttl now = ((cacheGet c k).map (fun e => e.data), c) := by
  cases hc : cacheGet c k with
  | none => simp [getFromCache, hc]
  | some e => simp [getFromCache, hc, httl]

/-- C8 witness: the amended statement for an absent ttl at a concrete
store. -/
theorem c8_getFromCache_no_ttl_witness :
    getFromCache [("k", { data := JsValue.vStr "v", timestamp := 0 })] "k" none 999999
      = (some (JsValue.vStr "v"), [("k", { data := JsValue.vStr "v", timestamp := 0 })]) := by
  have h := c8_getFromCache_no_ttl
    [("k", { data := JsValue.vStr "v", timestamp := 0 })] "k" none 999999 rfl
  rw [h]
  rfl

/-- With no cacheOptions the cache phase serves nothing and request
goes straight to the network phase with no write-back. -/
theorem requestModel_no_cacheOptions (cfg : ClientConfig)
    (reqInts : List (ReqPair → ReqPair)) (respInts : List (Response → Response))
    (cache : Cache) (url : String) (opts : ReqOptions)
    (fetch : Nat → ReqPair → Response) (parse : String → Option JsValue) (now : Nat) :
    requestModel cfg reqInts respInts cache url opts none fetch parse now
      = networkPhase cfg reqInts respInts cache url opts
          (((opts.method == some "GET") || opts.method.isNone) && false) fetch parse now := by
  simp only [requestModel, Option.map_none', Option.getD_none, Bool.and_false,
    Bool.false_eq_true, if_false]

/-- When every attempted response is non-2xx, the network phase throws
the HttpError of the final attempt, carrying the status of that final
response and its best-effort parsed body, after exactly maxAttempts
fetches, and leaves
the cache untouched. -/
theorem networkPhase_allFail (cfg : ClientConfig)
    (reqInts : List (ReqPair → ReqPair)) (respInts : List (Response → Response))
    (cacheAfterLookup : Cache) (url : String) (opts : ReqOptions) (writeBack : Bool)
    (fetch : Nat → ReqPair → Response) (parse : String → Option JsValue) (now : Nat)
    (h1 : 1 ≤ cfg.retryConfig.maxAttempts)
    (hfail : ∀ k p, (applyResponseInterceptors respInts (fetch k p)).ok = false) :
    networkPhase cfg reqInts respInts cacheAfterLookup url opts writeBack fetch parse now
      = { result := Except.error (ReqError.http
            { status := (finalResponse cfg reqInts respInts url opts fetch).status,
              response := parseBody parse
                (finalResponse cfg reqInts respInts url opts fetch).bodyText }),
          cache := cacheAfterLookup,
          fetchCount := cfg.retryConfig.maxAttempts } := by
  have hop : ∀ k, handleResponse parse (applyResponseInterceptors respInts
      (fetch k (sentRequest cfg reqInts url opts)))
        = Except.error
            { status := (applyResponseInterceptors respInts
                (fetch k (sentRequest cfg reqInts url opts))).status,
              response := parseBody parse (applyResponseInterceptors respInts
                (fetch k (sentRequest cfg reqInts url opts))).bodyText } := by
    intro k
    unfold handleResponse
    rw [if_neg (by simp [hfail])]
  have hrun : executeWithRetry cfg.retryConfig
      (fun k => handleResponse parse (applyResponseInterceptors respInts
        (fetch k (sentRequest cfg reqInts url opts))))
        = (Except.error (some
            { status := (finalResponse cfg reqInts respInts url opts fetch).status,
              response := parseBody parse
                (finalResponse cfg reqInts respInts url opts fetch).bodyText }),
           cfg.retryConfig.maxAttempts + 1 - 1,
           (List.range' 1 (cfg.retryConfig.maxAttempts - 1)).map
             (backoffDelay cfg.retryConfig)) := by
    unfold executeWithRetry
    exact retryLoop_allFail cfg.retryConfig _ _ hop
      (cfg.retryConfig.maxAttempts - 1) 1 none le_rfl h1 (by omega)
  simp only [networkPhase, hrun]
  rfl

/-- C9: for a call without caching whose every attempted response is
non-2xx, request throws an error carrying the numeric status of the
final response and its best-effort parsed body (JSON-decoded when it
parses, otherwise the raw text wrapped as a message), and never returns
normally. -/
theorem c9_request_http_error (cfg : ClientConfig)
    (reqInts : List (ReqPair → ReqPair)) (respInts : List (Response → Response))
    (cache : Cache) (url : String) (opts : ReqOptions)
    (fetch : Nat → ReqPair → Response) (parse : String → Option JsValue) (now : Nat)
    (h1 : 1 ≤ cfg.retryConfig.maxAttempts)
    (hfail : ∀ k p, (applyResponseInterceptors respInts (fetch k p)).ok = false) :
    (requestModel cfg reqInts respInts cache url opts none fetch parse now).result
      = Except.error (ReqError.http
          { status := (finalResponse cfg reqInts respInts url opts fetch).status,
            response := parseBody parse
              (finalResponse cfg reqInts respInts url opts fetch).bodyText }) ∧
    ∀ v, (requestModel cfg reqInts respInts cache url opts none fetch parse now).result
      ≠ Except.ok v := by
  have hm : requestModel cfg reqInts respInts cache url opts none fetch parse now
      = { result := Except.error (ReqError.http
            { status := (finalResponse cfg reqInts respInts url opts fetch).status,
              response := parseBody parse
                (finalResponse cfg reqInts respInts url opts fetch).bodyText }),
          cache := cache,
          fetchCount := cfg.retryConfig.maxAttempts } := by
    rw [requestModel_no_cacheOptions]
    exact networkPhase_allFail cfg reqInts respInts cache url opts _ fetch parse now h1 hfail
  rw [hm]
  exact ⟨rfl, fun v h => by simp at h⟩

/-- C9 witness: a concrete call where every response has status 500 and
an unparsable body; the error of the last attempt carries the status
and the wrapped raw text, as the theorem dictates. -/
theorem c9_request_http_error_witness :
    (requestModel defaultClientConfig [] [] [] "/x"
        { method := some "GET", headers := [] } none
        (fun _ _ => { ok := false, status := 500, bodyText := "oops", contentTypeJson := false })
        (fun _ => none) 0).result
      = Except.error (ReqError.http
          { status := 500, response := ParsedBody.wrapped "oops" }) := by
  have h := (c9_request_http_error defaultClientConfig [] [] [] "/x"
    { method := some "GET", headers := [] }
    (fun _ _ => { ok := false, status := 500, bodyText := "oops", contentTypeJson := false })
    (fun _ => none) 0 (by decide) (fun k p => rfl)).1
  rw [h]
  rfl

/-- The network phase always runs the transport under the retry
wrapper, whatever the outcome: its fetch count is the invocation
count of the wrapper. -/
theorem networkPhase_fetchCount (cfg : ClientConfig)
    (reqInts : List (ReqPair → ReqPair)) (respInts : List (Response → Response))
    (cacheAfterLookup : Cache) (url : String) (opts : ReqOptions) (writeBack : Bool)
    (fetch : Nat → ReqPair → Response) (parse : String → Option JsValue) (now : Nat) :
    (networkPhase cfg reqInts respInts cacheAfterLookup url opts writeBack
        fetch parse now).fetchCount
      = (executeWithRetry cfg.retryConfig
          (fun k => handleResponse parse (applyResponseInterceptors respInts
            (fetch k (sentRequest cfg reqInts url opts))))).2.1 := by
  simp only [networkPhase]
  split
  · rfl
  · rfl
  · split
    · rfl
    · rfl

/-- C10: a cacheable GET whose stored payload is falsy (null, false, 0
or the empty string) is treated as a cache miss: the `if (cachedData)`
truthiness test rejects the stored value and the network call is
performed (at least one fetch), so a cached value short-circuits the
network only when it is truthy. -/
theorem c10_falsy_cached_not_served (cfg : ClientConfig)
    (reqInts : List (ReqPair → ReqPair)) (respInts : List (Response → Response))
    (cache : Cache) (url : String) (opts : ReqOptions) (cacheTtl : Option Nat)
    (fetch : Nat → ReqPair → Response) (parse : String → Option JsValue) (now : Nat)
    (hget : opts.method = some "GET" ∨ opts.method = none)
    (h1 : 1 ≤ cfg.retryConfig.maxAttempts)
    (e : CacheEntry)
    (hk : cacheGet cache (getCacheKey cfg.baseUrl url none) = some e)
    (hfalsy : truthy e.data = false) :
    1 ≤ (requestModel cfg reqInts respInts cache url opts
          (some { cache := true, cacheTtl := cacheTtl }) fetch parse now).fetchCount := by
  have hisGet : ((opts.method == some "GET") || opts.method.isNone) = true := by
    rcases hget with h | h <;> simp [h]
  have hlk : (getFromCache cache (getCacheKey cfg.baseUrl url none) cacheTtl now).1 = none ∨
      (getFromCache cache (getCacheKey cfg.baseUrl url none) cacheTtl now).1 = some e.data := by
    simp only [getFromCache, hk]
    by_cases h0 : cacheTtl.getD 0 ≠ 0
    · rw [if_pos h0]
      by_cases hex : now - e.timestamp > cacheTtl.getD 0
      · rw [if_pos hex]
        left
        rfl
      · rw [if_neg hex]
        right
        rfl
    · rw [if_neg h0]
      right
      rfl
  simp only [requestModel, hisGet, Option.map_some', Option.getD_some, Bool.true_and,
    if_true]
  rcases hlk with h | h
  · rw [h]
    rw [networkPhase_fetchCount]
    exact executeWithRetry_pos _ _ h1
  · rw [h]
    simp only [hfalsy, Bool.false_eq_true, if_false]
    rw [networkPhase_fetchCount]
    exact executeWithRetry_pos _ _ h1

/-- C10 witness: a cached empty string under the key of a cacheable GET
does not short-circuit the call; the network runs. -/
theorem c10_falsy_cached_not_served_witness :
    1 ≤ (requestModel defaultClientConfig [] []
          [("/x", { data := JsValue.vStr "", timestamp := 0 })] "/x"
          { method := some "GET", headers := [] }
          (some { cache := true, cacheTtl := some 1000 })
          (fun _ _ => { ok := true, status := 200, bodyText := "net", contentTypeJson := false })
          (fun _ => none) 10).fetchCount := by
  exact c10_falsy_cached_not_served defaultClientConfig [] []
    [("/x", { data := JsValue.vStr "", timestamp := 0 })] "/x"
    { method := some "GET", headers := [] } (some 1000)
    (fun _ _ => { ok := true, status := 200, bodyText := "net", contentTypeJson := false })
    (fun _ => none) 10 (Or.inl rfl) (by decide)
    { data := JsValue.vStr "", timestamp := 0 } rfl rfl
